import Mathlib

/-!
Verification of the scenario extraction / classification / compliance
aggregation pipeline.

The Python sources are shallowly embedded here:
* `parse_tck_scenarios.py` : `check_requires_runtime` (regex classification of
  a document's text), `determine_language_area`, and the `scenario_id`
  derivation performed inside the loop body of `parse_feature_file`.
* `scripts/update_compliance.py` : `calculate_compliance` and
  `update_statistics` over a JSON-like ledger model.

Python strings are modelled as `List Char`; the regular expressions used by
`check_requires_runtime` use only literal characters, the word-boundary
assertion and a single `\w+` group, so they are embedded as token lists over a
small pattern alphabet with a backtracking matcher (fueled, hence structural).
Case-insensitive matching lowercases ASCII letters on both sides, which is
exact for the ASCII pattern texts involved.
-/

/-- Word character as in the regular expression class used by the source
(ASCII letters, digits, underscore). -/
def isWordChar (c : Char) : Bool := c.isAlphanum || c = '_'

/-- ASCII lowercasing, mirroring case-insensitive matching on ASCII text. -/
def toLowerA (c : Char) : Char :=
  if 'A' ≤ c && c ≤ 'Z' then Char.ofNat (c.toNat + 32) else c

/-- Pattern tokens: a literal character, the word-boundary assertion, or a
nonempty run of word characters. -/
inductive PatTok where
  | lit (c : Char)
  | wb
  | wplus

/-- True at a word boundary: previous character and next character disagree on
word-character-ness (ends of text count as non-word). -/
def atBoundary (prev : Option Char) (text : List Char) : Bool :=
  (match prev with
   | none => false
   | some c => isWordChar c) !=
  (match text with
   | [] => false
   | d :: _ => isWordChar d)

/-- Fueled backtracking matcher anchored at the current position.  `prev` is
the character just before the position (for word boundaries).  The fuel only
bounds recursion depth; every recursive call shrinks pattern + text, so the
initial fuel used by `matchFrom` is never exhausted. -/
def matchFromF : Nat → List PatTok → Option Char → List Char → Bool
  | 0, _, _, _ => false
  | fuel + 1, pat, prev, text =>
    match pat with
    | [] => true
    | PatTok.lit c :: ps =>
      match text with
      | [] => false
      | d :: ds => toLowerA c == toLowerA d && matchFromF fuel ps (some d) ds
    | PatTok.wb :: ps => atBoundary prev text && matchFromF fuel ps prev text
    | PatTok.wplus :: ps =>
      match text with
      | [] => false
      | d :: ds =>
        isWordChar d &&
          (matchFromF fuel ps (some d) ds ||
           matchFromF fuel (PatTok.wplus :: ps) (some d) ds)

/-- Anchored match with sufficient fuel. -/
def matchFrom (pat : List PatTok) (prev : Option Char) (text : List Char) : Bool :=
  matchFromF (pat.length + text.length + 1) pat prev text

/-- Search for a match starting at any position (the semantics of the source's
unanchored regex search). -/
def searchAux (pat : List PatTok) : Option Char → List Char → Bool
  | prev, [] => matchFrom pat prev []
  | prev, d :: ds => matchFrom pat prev (d :: ds) || searchAux pat (some d) ds

/-- Unanchored, case-insensitive search of `pat` in `text`. -/
def search (pat : List PatTok) (text : List Char) : Bool :=
  searchAux pat none text

/-- Literal pattern tokens of a string. -/
def lits (s : String) : List PatTok := s.data.map PatTok.lit

/-- A phrase wrapped in word boundaries. -/
def phrase (s : String) : List PatTok := PatTok.wb :: lits s ++ [PatTok.wb]

/-- A typed-error pattern: boundary, a literal lead-in, a nonempty word-char
run, then a literal tail and closing boundary. -/
def errPat (lead : String) : List PatTok :=
  PatTok.wb :: lits lead ++ PatTok.wplus :: lits (r"Error should be raised") ++ [PatTok.wb]

/-- The runtime-execution indicator patterns of the source, in source order. -/
def runtime_indicators : List (List PatTok) :=
  [phrase (r"And the result should be"),
   phrase (r"Then the result should be"),
   phrase (r"And the side effects should be"),
   phrase (r"Then the side effects should be"),
   phrase (r"When executing query"),
   phrase (r"And executing query"),
   errPat (r"Then a "),
   errPat (r"And a "),
   phrase (r"no side effects"),
   phrase (r"rows in any order"),
   phrase (r"rows in order")]

/-- The parse/validate-only indicator patterns of the source, in source order. -/
def parse_validate_indicators : List (List PatTok) :=
  [phrase (r"Then a SyntaxError should be raised"),
   phrase (r"And a SyntaxError should be raised"),
   phrase (r"should fail to parse"),
   phrase (r"parse error")]

/-- The alternation in the source's final default check, as a list of
patterns (an alternation matches iff some branch matches). -/
def default_setup_indicators : List (List PatTok) :=
  [phrase (r"Given an empty graph"),
   phrase (r"Given any graph"),
   phrase (r"When executing query")]

/-- Embedding of `check_requires_runtime(content, scenario_name)`.  The
`scenario_name` parameter is accepted and ignored, exactly as in the source. -/
def check_requires_runtime (content : List Char) (_scenario_name : List Char) : Bool :=
  if parse_validate_indicators.any (fun p => search p content) then false
  else if runtime_indicators.any (fun p => search p content) then true
  else if default_setup_indicators.any (fun p => search p content) then true
  else false

/-- Python's `str.split(sep)` for a single-character separator. -/
def splitOnChar (sep : Char) : List Char → List (List Char)
  | [] => [[]]
  | c :: cs =>
    if c = sep then [] :: splitOnChar sep cs
    else
      match splitOnChar sep cs with
      | [] => [[c]]
      | h :: t => (c :: h) :: t

/-- The sentinel returned by `determine_language_area` for pathless inputs. -/
def unknownArea : List Char := ['u', 'n', 'k', 'n', 'o', 'w', 'n']

/-- Embedding of `determine_language_area(file_path)`: split on `/`; with at
least three parts return `parts[0] ++ "." ++ parts[1]`, with exactly two
return `parts[0]`, otherwise the sentinel. -/
def determine_language_area (file_path : List Char) : List Char :=
  match splitOnChar '/' file_path with
  | a :: b :: _ :: _ => a ++ '.' :: b
  | [a, _] => a
  | _ => unknownArea

/-- String-to-character-list shorthand used for concrete inputs. -/
def strL (s : String) : List Char := s.data

/-- The decimal digit character of `d < 10`. -/
def digitChar (d : Nat) : Char := Char.ofNat (48 + d)

/-- Little-endian decimal digits of `n`, fueled (fuel `n` suffices since the
argument at least halves each step). -/
def natReprAux : Nat → Nat → List Char
  | 0, _ => []
  | _, 0 => []
  | fuel + 1, n + 1 => digitChar ((n + 1) % 10) :: natReprAux fuel ((n + 1) / 10)

/-- Python's `str(n)` for a natural number. -/
def natRepr (n : Nat) : List Char :=
  if n = 0 then ['0'] else (natReprAux n n).reverse

/-- Python's `f-string` format `{k:02d}`: decimal, zero-padded to width two. -/
def pad2 (k : Nat) : List Char :=
  if k < 10 then '0' :: natRepr k else natRepr k

/-- The numeric value of a decimal digit character. -/
def charVal (c : Char) : Nat := c.toNat - 48

/-- Value of a little-endian decimal digit list. -/
def decodeLE : List Nat → Nat
  | [] => 0
  | d :: ds => d + 10 * decodeLE ds

/-- Value of a (big-endian) decimal character string; inverse of `natRepr`. -/
def decode (l : List Char) : Nat := decodeLE (l.reverse.map charVal)

/-- The feature-file extension removed by the source. -/
def featExt : List Char := ['.', 'f', 'e', 'a', 't', 'u', 'r', 'e']

/-- Python's `s.replace('.feature', '')`: delete non-overlapping occurrences of
`featExt` left to right, fueled (fuel `s.length` suffices: each step consumes
at least one character and exactly one unit of fuel). -/
def removeOccsAux (n : Nat) (s : List Char) : List Char :=
  match s with
  | [] => []
  | c :: cs =>
    match n with
    | 0 => c :: cs
    | m + 1 =>
      if featExt.isPrefixOf (c :: cs) then removeOccsAux m ((c :: cs).drop featExt.length)
      else c :: removeOccsAux m cs

/-- Deletion of every occurrence of the feature extension. -/
def removeOccs (s : List Char) : List Char := removeOccsAux s.length s

/-- Python's `'-'.join(parts)` for a single-character separator. -/
def joinWith (sep : Char) : List (List Char) → List Char
  | [] => []
  | [x] => x
  | x :: y :: rest => x ++ sep :: joinWith sep (y :: rest)

/-- Embedding of the `scenario_id` derivation in `parse_feature_file`:
`'-'.join(relative_path.replace('.feature', '').split('/')) + '-' + f"{i+1:02d}"`
where `i` is the 0-based occurrence index of the scenario in its document. -/
def scenario_id (relative_path : List Char) (i : Nat) : List Char :=
  joinWith '-' (splitOnChar '/' (removeOccs relative_path)) ++ '-' :: pad2 (i + 1)

/-- Whether `pat` occurs as a contiguous substring (for nonempty `pat`). -/
def occursIn (pat : List Char) : List Char → Bool
  | [] => false
  | c :: cs => pat.isPrefixOf (c :: cs) || occursIn pat cs

/-- Modelled from the spec: strip the feature-file extension, i.e. remove one
trailing `.feature` suffix only (the spec's wording for the first step of
identifier derivation). -/
def stripExt (p : List Char) : List Char :=
  if featExt.isSuffixOf p then p.take (p.length - featExt.length) else p

/-- Modelled from the spec: identifier derivation as the spec words it —
strip the extension, split into segments, join with `-`, append the 1-based
two-digit zero-padded index. -/
def scenario_id_spec (relative_path : List Char) (i : Nat) : List Char :=
  joinWith '-' (splitOnChar '/' (stripExt relative_path)) ++ '-' :: pad2 (i + 1)


/-- JSON-like values: the data held by the ledger file (`coverage.json`).
Numbers are split into integers (Python `int`) and rationals (Python `float`,
modelled exactly as the rational the arithmetic denotes). -/
inductive JVal where
  | null
  | bool (b : Bool)
  | nat (n : Nat)
  | rat (q : ℚ)
  | str (s : String)
  | arr (l : List JVal)
  | obj (fields : List (String × JVal))

/-- First-match key lookup in an object's field list (Python dict access;
dict keys are unique, so first-match agrees with dict semantics). -/
def getKey (l : List (String × JVal)) (k : String) : Option JVal :=
  match l with
  | [] => none
  | (k1, v) :: rest => if k1 = k then some v else getKey rest k

/-- Python dict assignment `d[k] = v`: replace the value of an existing key in
place, else append the new binding at the end (insertion order). -/
def setKey (l : List (String × JVal)) (k : String) (v : JVal) : List (String × JVal) :=
  match l with
  | [] => [(k, v)]
  | (k1, v1) :: rest => if k1 = k then (k, v) :: rest else (k1, v1) :: setKey rest k v

/-- Python `==` between an arbitrary value and a string constant. -/
def is_str (v : JVal) (s : String) : Bool :=
  match v with
  | JVal.str t => t == s
  | _ => false

/-- `scenario.get('status', 'pending')`; fails (like the attribute access in
the source) when the entry is not an object. -/
def entry_status (v : JVal) : Option JVal :=
  match v with
  | JVal.obj fields => some ((getKey fields (r"status")).getD (JVal.str (r"pending")))
  | _ => none

/-- The entry's status is the given string. -/
def entry_is (v : JVal) (s : String) : Bool :=
  match entry_status v with
  | some st => is_str st s
  | none => false

/-- The entry falls into the catch-all `pending` counter. -/
def entry_is_pending (v : JVal) : Bool :=
  !(entry_is v (r"pass") || entry_is v (r"fail") || entry_is v (r"skip"))

/-- The counting loop of `update_statistics`: per-status counters
(passed, failed, skipped, pending); `none` when some entry is not an object
(the source would raise there). -/
def compute_counts : List JVal → Option (Nat × Nat × Nat × Nat)
  | [] => some (0, 0, 0, 0)
  | v :: rest =>
    match entry_status v, compute_counts rest with
    | some st, some (p, f, s, pe) =>
      if is_str st (r"pass") then some (p + 1, f, s, pe)
      else if is_str st (r"fail") then some (p, f + 1, s, pe)
      else if is_str st (r"skip") then some (p, f, s + 1, pe)
      else some (p, f, s, pe + 1)
    | _, _ => none

/-- Embedding of `calculate_compliance`: `0.0` when the total is zero, else
`passed / total * 100` (float arithmetic modelled as exact rationals). -/
def calculate_compliance (total passed : Nat) : ℚ :=
  if total = 0 then 0 else (passed : ℚ) / (total : ℚ) * 100

/-- The statistics object built by `update_statistics`, in its insertion
order of keys. -/
def stats_jval (total p f s pe : Nat) : JVal :=
  JVal.obj
    [(r"total_scenarios", JVal.nat total),
     (r"passed", JVal.nat p),
     (r"failed", JVal.nat f),
     (r"skipped", JVal.nat s),
     (r"pending", JVal.nat pe),
     (r"compliance_percentage", JVal.rat (calculate_compliance total p))]

/-- `coverage_data.get('scenarios', [])` followed by iteration: a missing key
yields the empty list, a non-array value makes iteration fail. -/
def get_scenarios (cov : List (String × JVal)) : Option (List JVal) :=
  match getKey cov (r"scenarios") with
  | none => some []
  | some (JVal.arr l) => some l
  | some _ => none

/-- Embedding of `update_statistics(coverage_data)`: recompute the statistics
object from the scenarios list and assign it to the `statistics` key; `none`
when the source would raise. -/
def update_statistics (cov : List (String × JVal)) : Option (List (String × JVal)) :=
  match get_scenarios cov with
  | none => none
  | some l =>
    match compute_counts l with
    | none => none
    | some (p, f, s, pe) =>
      some (setKey cov (r"statistics") (stats_jval l.length p f s pe))

/-- A concrete ledger used by witnesses: four scenarios with statuses
pass, pass, fail, pending, plus unrecognized extra fields and keys. -/
def covEx : List (String × JVal) :=
  [(r"scenarios", JVal.arr
     [JVal.obj [(r"scenario_id", JVal.str (r"a-01")), (r"status", JVal.str (r"pass")), (r"custom", JVal.nat 7)],
      JVal.obj [(r"scenario_id", JVal.str (r"a-02")), (r"status", JVal.str (r"pass"))],
      JVal.obj [(r"scenario_id", JVal.str (r"b-01")), (r"status", JVal.str (r"fail")), (r"priority", JVal.str (r"high"))],
      JVal.obj [(r"scenario_id", JVal.str (r"b-02")), (r"status", JVal.str (r"pending"))]]),
   (r"extra", JVal.str (r"keepme")),
   (r"statistics", JVal.str (r"stale"))]

/-- The result of recomputation on `covEx`. -/
def covExU : List (String × JVal) :=
  setKey covEx (r"statistics") (stats_jval 4 2 1 0 1)

/-- A second ledger with the same scenarios as `covEx` but different other
top-level fields. -/
def covExB : List (String × JVal) :=
  [(r"scenarios", JVal.arr
     [JVal.obj [(r"scenario_id", JVal.str (r"a-01")), (r"status", JVal.str (r"pass")), (r"custom", JVal.nat 7)],
      JVal.obj [(r"scenario_id", JVal.str (r"a-02")), (r"status", JVal.str (r"pass"))],
      JVal.obj [(r"scenario_id", JVal.str (r"b-01")), (r"status", JVal.str (r"fail")), (r"priority", JVal.str (r"high"))],
      JVal.obj [(r"scenario_id", JVal.str (r"b-02")), (r"status", JVal.str (r"pending"))]]),
   (r"note", JVal.null)]

/-- The result of recomputation on `covExB`. -/
def covExBU : List (String × JVal) :=
  setKey covExB (r"statistics") (stats_jval 4 2 1 0 1)

/-- A document text containing both a runtime indicator and a
parse/validate-only indicator. -/
def c1content : List Char :=
  strL (r"Then the result should be an error because it should fail to parse")

/-- A corpus-relative path used by concrete witnesses. -/
def pathEx : List Char := strL (r"expressions/arithmetic.feature")

/-- The stem of `pathEx`, before the feature extension. -/
def stemEx : List Char := strL (r"expressions/arithmetic")

/- ------------------------------------------------------------------ -/
/- Theorems.  First, small list helper lemmas.                         -/
/- ------------------------------------------------------------------ -/

theorem take_append_self (a b : List Char) : (a ++ b).take a.length = a := by
  induction a with
  | nil => simp
  | cons x xs ih => simp [ih]

theorem drop_append_self (a b : List Char) : (a ++ b).drop a.length = b := by
  induction a with
  | nil => simp
  | cons x xs ih => simp [ih]

theorem take_append_le (a b : List Char) (n : Nat) (h : n ≤ a.length) :
    (a ++ b).take n = a.take n := by
  induction a generalizing n with
  | nil =>
    have : n = 0 := by simpa using h
    simp [this]
  | cons x xs ih =>
    cases n with
    | zero => simp
    | succ m => simp [ih m (by simpa using h)]

theorem isPrefixOf_take (p : List Char) (l : List Char) (h : p.isPrefixOf l = true) :
    l.take p.length = p := by
  induction p generalizing l with
  | nil => simp
  | cons a as ih =>
    cases l with
    | nil => simp [List.isPrefixOf] at h
    | cons b bs =>
      simp only [List.isPrefixOf, Bool.and_eq_true, beq_iff_eq] at h
      simp [h.1, ih bs h.2]

theorem take_isPrefixOf (p : List Char) (l : List Char) (h : l.take p.length = p) :
    p.isPrefixOf l = true := by
  induction p generalizing l with
  | nil => simp [List.isPrefixOf]
  | cons a as ih =>
    cases l with
    | nil => simp at h
    | cons b bs =>
      simp only [List.length_cons, List.take_succ_cons, List.cons.injEq] at h
      simp only [List.isPrefixOf, Bool.and_eq_true, beq_iff_eq]
      exact ⟨h.1.symm, ih bs h.2⟩

theorem isPrefixOf_append_self (p r : List Char) : p.isPrefixOf (p ++ r) = true :=
  take_isPrefixOf p (p ++ r) (take_append_self p r)

/-- C1: if the document text matches any parse/validate-only indicator
(case-insensitively), every scenario of the document classifies
`requires_runtime = false`, regardless of any runtime indicators also
matching: the parse/validate-only check takes precedence. -/
theorem check_requires_runtime_parse_precedence (content nm : List Char)
    (h : parse_validate_indicators.any (fun p => search p content) = true) :
    check_requires_runtime content nm = false := by
  simp [check_requires_runtime, h]

theorem check_requires_runtime_parse_precedence_witness :
    parse_validate_indicators.any (fun p => search p c1content) = true ∧
    runtime_indicators.any (fun p => search p c1content) = true ∧
    check_requires_runtime c1content [] = false :=
  ⟨by decide, by decide, check_requires_runtime_parse_precedence c1content [] (by decide)⟩

/-- C7 counterexample: a document at the corpus root has one path segment
(zero segments beyond the leaf, hence fewer than two), yet the code returns
the sentinel `unknown`, not the first segment alone as the claim states. -/
theorem determine_language_area_root_counterexample :
    splitOnChar '/' (strL (r"arithmetic.feature")) = [strL (r"arithmetic.feature")] ∧
    determine_language_area (strL (r"arithmetic.feature")) ≠ strL (r"arithmetic.feature") := by
  constructor
  · decide
  · decide

/-- C7 amended: with at least three path segments (two or more beyond the
leaf) the area is `first.second`; with exactly two it is the first segment
alone; with a single segment (no directory part) it is the sentinel
`unknown`. -/
theorem determine_language_area_spec (fp : List Char) :
    (∀ a, splitOnChar '/' fp = [a] → determine_language_area fp = unknownArea) ∧
    (∀ a b, splitOnChar '/' fp = [a, b] → determine_language_area fp = a) ∧
    (∀ a b c l, splitOnChar '/' fp = a :: b :: c :: l →
      determine_language_area fp = a ++ '.' :: b) := by
  refine ⟨?_, ?_, ?_⟩
  · intro a h
    unfold determine_language_area
    rw [h]
  · intro a b h
    unfold determine_language_area
    rw [h]
  · intro a b c l h
    unfold determine_language_area
    rw [h]

theorem determine_language_area_spec_witness :
    splitOnChar '/' pathEx = [strL (r"expressions"), strL (r"arithmetic.feature")] ∧
    determine_language_area pathEx = strL (r"expressions") :=
  ⟨by decide,
   (determine_language_area_spec pathEx).2.1 (strL (r"expressions"))
     (strL (r"arithmetic.feature")) (by decide)⟩

theorem charVal_digitChar (d : Nat) (h : d < 10) : charVal (digitChar d) = d := by
  interval_cases d <;> rfl

theorem decodeLE_append_zero (xs : List Nat) : decodeLE (xs ++ [0]) = decodeLE xs := by
  induction xs with
  | nil => rfl
  | cons d ds ih => simp [decodeLE, ih]

theorem natReprAux_decode (fuel : Nat) : ∀ n, n ≤ fuel →
    decodeLE ((natReprAux fuel n).map charVal) = n := by
  induction fuel with
  | zero =>
    intro n hn
    have : n = 0 := by omega
    subst this
    rfl
  | succ fuel ih =>
    intro n hn
    cases n with
    | zero => rfl
    | succ m =>
      have hdiv : (m + 1) / 10 ≤ fuel := by
        have := Nat.div_lt_self (Nat.succ_pos m) (by norm_num : 1 < 10)
        omega
      have hmod : (m + 1) % 10 < 10 := Nat.mod_lt _ (by norm_num)
      simp only [natReprAux, List.map_cons, decodeLE]
      rw [charVal_digitChar _ hmod, ih _ hdiv]
      exact Nat.mod_add_div (m + 1) 10

theorem decode_natRepr (n : Nat) : decode (natRepr n) = n := by
  by_cases h : n = 0
  · subst h
    rfl
  · unfold natRepr decode
    rw [if_neg h, List.reverse_reverse]
    exact natReprAux_decode n n (le_refl n)

theorem decode_pad2 (k : Nat) : decode (pad2 k) = k := by
  unfold pad2
  by_cases h : k < 10
  · rw [if_pos h]
    show decode ('0' :: natRepr k) = k
    unfold decode
    rw [List.reverse_cons, List.map_append]
    show decodeLE ((natRepr k).reverse.map charVal ++ [0]) = k
    rw [decodeLE_append_zero]
    exact decode_natRepr k
  · rw [if_neg h]
    exact decode_natRepr k

/-- C2 counterexample: two distinct (corpus-relative path, occurrence index)
pairs that derive the same `scenario_id` — a `-` inside a file name collides
with the `-` used to join path segments. -/
theorem scenario_id_distinct_paths_collide :
    strL (r"a-b.feature") ≠ strL (r"a/b.feature") ∧
    scenario_id (strL (r"a-b.feature")) 0 = scenario_id (strL (r"a/b.feature")) 0 := by
  constructor
  · decide
  · decide

/-- C2 amended: within one document (one fixed corpus-relative path) distinct
occurrence indices always derive distinct scenario ids, and the derivation is
a pure function of (path, index), hence deterministic across re-runs; across
distinct paths ids can collide. -/
theorem scenario_id_injective_in_index (p : List Char) (i j : Nat) (h : i ≠ j) :
    scenario_id p i ≠ scenario_id p j := by
  intro heq
  unfold scenario_id at heq
  have h2 := congrArg (List.drop (joinWith '-' (splitOnChar '/' (removeOccs p))).length) heq
  rw [drop_append_self, drop_append_self] at h2
  have h3 : pad2 (i + 1) = pad2 (j + 1) := by
    simpa using h2
  have h4 := congrArg decode h3
  rw [decode_pad2, decode_pad2] at h4
  omega

theorem scenario_id_injective_in_index_witness :
    (0 : Nat) ≠ 1 ∧ scenario_id pathEx 0 ≠ scenario_id pathEx 1 :=
  ⟨by decide, scenario_id_injective_in_index pathEx 0 1 (by decide)⟩

theorem occursIn_cons_false (c : Char) (cs : List Char)
    (h : occursIn featExt (c :: cs) = false) :
    featExt.isPrefixOf (c :: cs) = false ∧ occursIn featExt cs = false := by
  simpa only [occursIn, Bool.or_eq_false_iff] using h

/-- The extension pattern has no border: if it is not a prefix of `c :: q'`,
it is not a prefix of `c :: q'` followed by the extension either (no
occurrence can straddle the boundary). -/
theorem no_early_ext_prefix (c : Char) (q' : List Char)
    (hnp : featExt.isPrefixOf (c :: q') = false) :
    featExt.isPrefixOf ((c :: q') ++ featExt) = false := by
  by_contra hcon
  have hp : featExt.isPrefixOf ((c :: q') ++ featExt) = true := by
    cases hb : featExt.isPrefixOf ((c :: q') ++ featExt) with
    | false => exact absurd hb hcon
    | true => rfl
  have htake8 : ((c :: q') ++ featExt).take featExt.length = featExt :=
    isPrefixOf_take _ _ hp
  by_cases hlen : featExt.length ≤ (c :: q').length
  · have h1 : (c :: q').take featExt.length = featExt := by
      rw [← take_append_le (c :: q') featExt featExt.length hlen]
      exact htake8
    have h2 := take_isPrefixOf featExt (c :: q') h1
    rw [h2] at hnp
    exact Bool.noConfusion hnp
  · push_neg at hlen
    have hkle : (c :: q').length ≤ featExt.length := le_of_lt hlen
    have h2 : featExt.take (c :: q').length = c :: q' := by
      rw [← htake8, List.take_take, min_eq_left hkle]
      exact take_append_self _ _
    have h3 : featExt.isPrefixOf (featExt.take (c :: q').length ++ featExt) = true := by
      rw [h2]
      exact hp
    have hlb : 1 ≤ (c :: q').length := by simp
    have hfe : featExt.length = 8 := rfl
    have hcases : (c :: q').length = 1 ∨ (c :: q').length = 2 ∨ (c :: q').length = 3 ∨
        (c :: q').length = 4 ∨ (c :: q').length = 5 ∨ (c :: q').length = 6 ∨
        (c :: q').length = 7 := by omega
    rcases hcases with h | h | h | h | h | h | h <;> rw [h] at h3 <;>
      exact absurd h3 (by decide)

/-- Deleting every occurrence of the extension from `stem ++ extension`
returns the stem, provided the extension does not occur inside the stem. -/
theorem removeOccsAux_strip (q : List Char) : ∀ n, occursIn featExt q = false →
    q.length + 1 ≤ n → removeOccsAux n (q ++ featExt) = q := by
  induction q with
  | nil =>
    intro n _ hn
    obtain ⟨m, rfl⟩ : ∃ m, n = m + 1 := ⟨n - 1, by omega⟩
    show removeOccsAux (m + 1) ('.' :: ['f', 'e', 'a', 't', 'u', 'r', 'e']) = []
    simp only [removeOccsAux]
    rw [if_pos (by decide)]
    show removeOccsAux m [] = []
    simp only [removeOccsAux]
  | cons c q' ih =>
    intro n h hn
    obtain ⟨m, rfl⟩ : ∃ m, n = m + 1 := ⟨n - 1, by omega⟩
    obtain ⟨hnp, hocc⟩ := occursIn_cons_false c q' h
    have hpf : featExt.isPrefixOf ((c :: q') ++ featExt) = false :=
      no_early_ext_prefix c q' hnp
    rw [List.cons_append] at hpf
    show removeOccsAux (m + 1) (c :: (q' ++ featExt)) = c :: q'
    simp only [removeOccsAux]
    rw [if_neg (by simp [hpf])]
    have hb : q'.length + 1 ≤ m := by
      simp only [List.length_cons] at hn
      omega
    rw [ih m hocc hb]

theorem stripExt_append (q : List Char) : stripExt (q ++ featExt) = q := by
  unfold stripExt
  have hsuf : featExt.isSuffixOf (q ++ featExt) = true := by
    unfold List.isSuffixOf
    rw [List.reverse_append]
    exact isPrefixOf_append_self featExt.reverse q.reverse
  rw [if_pos hsuf]
  have hlen : (q ++ featExt).length - featExt.length = q.length := by
    simp [List.length_append]
  rw [hlen]
  exact take_append_self q featExt

/-- C6 counterexample: the code removes every occurrence of `.feature`, not
just the trailing extension, so a document whose stem itself ends in
`.feature` gets an id differing from the spec's strip-the-extension
derivation. -/
theorem scenario_id_strip_extension_counterexample :
    scenario_id (strL (r"a.feature.feature")) 0 ≠
      scenario_id_spec (strL (r"a.feature.feature")) 0 ∧
    scenario_id (strL (r"a.feature.feature")) 0 = strL (r"a-01") ∧
    scenario_id_spec (strL (r"a.feature.feature")) 0 = strL (r"a.feature-01") := by
  refine ⟨?_, ?_, ?_⟩ <;> decide

/-- C6 amended: for a document path `stem ++ ".feature"` whose stem does not
itself contain `.feature`, the derived id is exactly the spec's derivation —
stem split into segments, joined with `-`, with the 1-based two-digit
zero-padded occurrence index appended.  (In general the code removes every
occurrence of `.feature`, not only the trailing extension.) -/
theorem scenario_id_matches_spec_of_no_inner_ext (q : List Char) (i : Nat)
    (h : occursIn featExt q = false) :
    scenario_id (q ++ featExt) i = scenario_id_spec (q ++ featExt) i := by
  unfold scenario_id scenario_id_spec
  rw [stripExt_append]
  unfold removeOccs
  rw [removeOccsAux_strip q ((q ++ featExt).length) h]
  have hfe : featExt.length = 8 := rfl
  simp only [List.length_append]
  omega

theorem scenario_id_matches_spec_witness :
    occursIn featExt stemEx = false ∧
    scenario_id (stemEx ++ featExt) 0 = scenario_id_spec (stemEx ++ featExt) 0 ∧
    scenario_id (stemEx ++ featExt) 0 = strL (r"expressions-arithmetic-01") ∧
    scenario_id (stemEx ++ featExt) 1 = strL (r"expressions-arithmetic-02") :=
  ⟨by decide, scenario_id_matches_spec_of_no_inner_ext stemEx 0 (by decide),
   by decide, by decide⟩

theorem getKey_setKey_self (l : List (String × JVal)) (k : String) (v : JVal) :
    getKey (setKey l k v) k = some v := by
  induction l with
  | nil => simp [setKey, getKey]
  | cons q rest ih =>
    obtain ⟨k1, v1⟩ := q
    by_cases h : k1 = k
    · simp [setKey, h, getKey]
    · simp [setKey, h, getKey, ih]

theorem getKey_setKey_ne (l : List (String × JVal)) (k k' : String) (v : JVal)
    (h : k' ≠ k) : getKey (setKey l k v) k' = getKey l k' := by
  induction l with
  | nil => simp [setKey, getKey, Ne.symm h]
  | cons q rest ih =>
    obtain ⟨k1, v1⟩ := q
    by_cases h1 : k1 = k
    · simp [setKey, h1, getKey, Ne.symm h]
    · by_cases h2 : k1 = k'
      · simp [setKey, h1, getKey, h2, h]
      · simp [setKey, h1, getKey, h2, ih]

theorem setKey_setKey_same (l : List (String × JVal)) (k : String) (v : JVal) :
    setKey (setKey l k v) k v = setKey l k v := by
  induction l with
  | nil => simp [setKey]
  | cons q rest ih =>
    obtain ⟨k1, v1⟩ := q
    by_cases h : k1 = k
    · simp [setKey, h]
    · simp [setKey, h, ih]

theorem is_str_eq (st : JVal) (s : String) (h : is_str st s = true) :
    st = JVal.str s := by
  cases st with
  | str t =>
    simp only [is_str, beq_iff_eq] at h
    rw [h]
  | null => simp [is_str] at h
  | bool b => simp [is_str] at h
  | nat n => simp [is_str] at h
  | rat q => simp [is_str] at h
  | arr l => simp [is_str] at h
  | obj fs => simp [is_str] at h

theorem compute_counts_spec (l : List JVal) : ∀ p f s pe,
    compute_counts l = some (p, f, s, pe) →
    p = l.countP (fun v => entry_is v (r"pass")) ∧
    f = l.countP (fun v => entry_is v (r"fail")) ∧
    s = l.countP (fun v => entry_is v (r"skip")) ∧
    pe = l.countP entry_is_pending ∧
    p + f + s + pe = l.length := by
  induction l with
  | nil =>
    intro p f s pe h
    simp only [compute_counts, Option.some.injEq, Prod.mk.injEq] at h
    obtain ⟨e1, e2, e3, e4⟩ := h
    subst e1; subst e2; subst e3; subst e4
    simp
  | cons v rest ih =>
    intro p f s pe h
    simp only [compute_counts] at h
    split at h
    · rename_i st p1 f1 s1 pe1 hst hrec
      obtain ⟨hp1, hf1, hs1, hpe1, hsum⟩ := ih p1 f1 s1 pe1 hrec
      have hps : entry_is v (r"pass") = is_str st (r"pass") := by
        simp [entry_is, hst]
      have hfs : entry_is v (r"fail") = is_str st (r"fail") := by
        simp [entry_is, hst]
      have hss : entry_is v (r"skip") = is_str st (r"skip") := by
        simp [entry_is, hst]
      have hpends : entry_is_pending v =
          !(is_str st (r"pass") || is_str st (r"fail") || is_str st (r"skip")) := by
        simp [entry_is_pending, hps, hfs, hss]
      split_ifs at h with h1 h2 h3
      · have hstv : st = JVal.str (r"pass") := is_str_eq st _ h1
        subst hstv
        have hpT : is_str (JVal.str (r"pass")) (r"pass") = true := by decide
        have hfF : is_str (JVal.str (r"pass")) (r"fail") = false := by decide
        have hsF : is_str (JVal.str (r"pass")) (r"skip") = false := by decide
        simp only [Option.some.injEq, Prod.mk.injEq] at h
        obtain ⟨e1, e2, e3, e4⟩ := h
        subst e1; subst e2; subst e3; subst e4
        refine ⟨?_, ?_, ?_, ?_, ?_⟩ <;>
          simp [List.countP_cons, hps, hfs, hss, hpends, hpT, hfF, hsF] <;>
          omega
      · have h1F : is_str st (r"pass") = false := by simpa using h1
        have hstv : st = JVal.str (r"fail") := is_str_eq st _ h2
        subst hstv
        have hfT : is_str (JVal.str (r"fail")) (r"fail") = true := by decide
        have hsF : is_str (JVal.str (r"fail")) (r"skip") = false := by decide
        simp only [Option.some.injEq, Prod.mk.injEq] at h
        obtain ⟨e1, e2, e3, e4⟩ := h
        subst e1; subst e2; subst e3; subst e4
        refine ⟨?_, ?_, ?_, ?_, ?_⟩ <;>
          simp [List.countP_cons, hps, hfs, hss, hpends, h1F, hfT, hsF] <;>
          omega
      · have h1F : is_str st (r"pass") = false := by simpa using h1
        have h2F : is_str st (r"fail") = false := by simpa using h2
        have hstv : st = JVal.str (r"skip") := is_str_eq st _ h3
        subst hstv
        have hsT : is_str (JVal.str (r"skip")) (r"skip") = true := by decide
        simp only [Option.some.injEq, Prod.mk.injEq] at h
        obtain ⟨e1, e2, e3, e4⟩ := h
        subst e1; subst e2; subst e3; subst e4
        refine ⟨?_, ?_, ?_, ?_, ?_⟩ <;>
          simp [List.countP_cons, hps, hfs, hss, hpends, h1F, h2F, hsT] <;>
          omega
      · have h1F : is_str st (r"pass") = false := by simpa using h1
        have h2F : is_str st (r"fail") = false := by simpa using h2
        have h3F : is_str st (r"skip") = false := by simpa using h3
        simp only [Option.some.injEq, Prod.mk.injEq] at h
        obtain ⟨e1, e2, e3, e4⟩ := h
        subst e1; subst e2; subst e3; subst e4
        refine ⟨?_, ?_, ?_, ?_, ?_⟩ <;>
          simp [List.countP_cons, hps, hfs, hss, hpends, h1F, h2F, h3F] <;>
          omega
    · simp at h

/-- Structure lemma: a successful recomputation is exactly an assignment of
the freshly computed statistics object to the `statistics` key. -/
theorem update_statistics_eq (cov cov' : List (String × JVal))
    (h : update_statistics cov = some cov') :
    ∃ l p f s pe, get_scenarios cov = some l ∧
      compute_counts l = some (p, f, s, pe) ∧
      cov' = setKey cov (r"statistics") (stats_jval l.length p f s pe) := by
  unfold update_statistics at h
  split at h
  · simp at h
  · rename_i l hgs
    split at h
    · simp at h
    · rename_i p f s pe hcc
      simp only [Option.some.injEq] at h
      exact ⟨l, p, f, s, pe, hgs, hcc, h.symm⟩

/-- C3: recomputation sets `total_scenarios` to the number of entries and
sends each entry to exactly one counter by its status — `pass` to passed,
`fail` to failed, `skip` to skipped, anything else to pending — so the four
counters always sum to `total_scenarios`. -/
theorem update_statistics_counts_spec (cov cov' : List (String × JVal))
    (h : update_statistics cov = some cov') :
    ∃ l p f s pe, get_scenarios cov = some l ∧
      compute_counts l = some (p, f, s, pe) ∧
      getKey cov' (r"statistics") = some (stats_jval l.length p f s pe) ∧
      p = l.countP (fun v => entry_is v (r"pass")) ∧
      f = l.countP (fun v => entry_is v (r"fail")) ∧
      s = l.countP (fun v => entry_is v (r"skip")) ∧
      pe = l.countP entry_is_pending ∧
      p + f + s + pe = l.length := by
  obtain ⟨l, p, f, s, pe, hgs, hcc, rfl⟩ := update_statistics_eq cov cov' h
  obtain ⟨hp, hf, hs, hpe, hsum⟩ := compute_counts_spec l p f s pe hcc
  exact ⟨l, p, f, s, pe, hgs, hcc, getKey_setKey_self cov _ _,
    hp, hf, hs, hpe, hsum⟩

theorem update_statistics_counts_spec_witness :
    ∃ l p f s pe, get_scenarios covEx = some l ∧
      compute_counts l = some (p, f, s, pe) ∧
      getKey covExU (r"statistics") = some (stats_jval l.length p f s pe) ∧
      p = l.countP (fun v => entry_is v (r"pass")) ∧
      f = l.countP (fun v => entry_is v (r"fail")) ∧
      s = l.countP (fun v => entry_is v (r"skip")) ∧
      pe = l.countP entry_is_pending ∧
      p + f + s + pe = l.length :=
  update_statistics_counts_spec covEx covExU rfl

/-- C4: statistics recomputation is idempotent — recomputing on an already
recomputed ledger returns that ledger unchanged. -/
theorem update_statistics_idempotent (cov cov' : List (String × JVal))
    (h : update_statistics cov = some cov') :
    update_statistics cov' = some cov' := by
  obtain ⟨l, p, f, s, pe, hgs, hcc, rfl⟩ := update_statistics_eq cov cov' h
  have hgs2 : get_scenarios
      (setKey cov (r"statistics") (stats_jval l.length p f s pe)) = some l := by
    unfold get_scenarios
    rw [getKey_setKey_ne _ _ _ _ (by decide)]
    unfold get_scenarios at hgs
    exact hgs
  simp only [update_statistics, hgs2, hcc]
  simp only [Option.some.injEq]
  exact setKey_setKey_same cov (r"statistics") _

theorem update_statistics_idempotent_witness :
    update_statistics covExU = some covExU :=
  update_statistics_idempotent covEx covExU rfl

/-- C5: a ledger with an empty (or absent) scenarios list recomputes
successfully with all counters zero and compliance 0; for a nonzero total the
compliance is `passed / total * 100` (float arithmetic modelled exactly over
the rationals). -/
theorem calculate_compliance_spec :
    (∀ cov, get_scenarios cov = some [] →
      update_statistics cov =
        some (setKey cov (r"statistics") (stats_jval 0 0 0 0 0))) ∧
    (∀ total passed : Nat, total ≠ 0 →
      calculate_compliance total passed = (passed : ℚ) / (total : ℚ) * 100) ∧
    calculate_compliance 0 0 = 0 := by
  refine ⟨?_, ?_, rfl⟩
  · intro cov hgs
    unfold update_statistics
    rw [hgs]
    rfl
  · intro t q ht
    unfold calculate_compliance
    rw [if_neg ht]

theorem calculate_compliance_spec_witness :
    update_statistics [((r"scenarios"), JVal.arr [])] =
      some (setKey [((r"scenarios"), JVal.arr [])] (r"statistics")
        (stats_jval 0 0 0 0 0)) ∧
    calculate_compliance 4 2 = ((2 : Nat) : ℚ) / ((4 : Nat) : ℚ) * 100 :=
  ⟨calculate_compliance_spec.1 [((r"scenarios"), JVal.arr [])] rfl,
   calculate_compliance_spec.2.1 4 2 (by decide)⟩

/-- C8: recomputation only modifies the `statistics` key — every other
top-level key, in particular the `scenarios` list with all its entries and
any unrecognized fields, is returned unchanged. -/
theorem update_statistics_frame (cov cov' : List (String × JVal)) (k : String)
    (h : update_statistics cov = some cov') (hk : k ≠ (r"statistics")) :
    getKey cov' k = getKey cov k := by
  obtain ⟨l, p, f, s, pe, hgs, hcc, rfl⟩ := update_statistics_eq cov cov' h
  exact getKey_setKey_ne cov _ k _ hk

theorem update_statistics_frame_witness :
    getKey covExU (r"scenarios") = getKey covEx (r"scenarios") ∧
    getKey covExU (r"extra") = getKey covEx (r"extra") :=
  ⟨update_statistics_frame covEx covExU (r"scenarios") rfl (by decide),
   update_statistics_frame covEx covExU (r"extra") rfl (by decide)⟩

/-- C10: the recomputed statistics block depends only on the scenarios list —
two ledgers whose scenarios agree (a missing key counting as the empty list)
receive identical statistics blocks, whatever their other fields. -/
theorem update_statistics_depends_only_on_scenarios
    (cov1 cov2 cov1' cov2' : List (String × JVal))
    (hs : get_scenarios cov1 = get_scenarios cov2)
    (h1 : update_statistics cov1 = some cov1')
    (h2 : update_statistics cov2 = some cov2') :
    getKey cov1' (r"statistics") = getKey cov2' (r"statistics") := by
  obtain ⟨l1, p1, f1, s1, pe1, hgs1, hcc1, rfl⟩ := update_statistics_eq cov1 cov1' h1
  obtain ⟨l2, p2, f2, s2, pe2, hgs2, hcc2, rfl⟩ := update_statistics_eq cov2 cov2' h2
  rw [hgs1, hgs2] at hs
  simp only [Option.some.injEq] at hs
  subst hs
  rw [hcc1] at hcc2
  simp only [Option.some.injEq, Prod.mk.injEq] at hcc2
  obtain ⟨e1, e2, e3, e4⟩ := hcc2
  subst e1; subst e2; subst e3; subst e4
  rw [getKey_setKey_self, getKey_setKey_self]

theorem update_statistics_depends_only_on_scenarios_witness :
    getKey covExU (r"statistics") = getKey covExBU (r"statistics") :=
  update_statistics_depends_only_on_scenarios covEx covExB covExU covExBU rfl rfl rfl

example : determine_language_area (strL (r"expressions/arithmetic.feature")) = strL (r"expressions") := by decide
example : determine_language_area (strL (r"a/b/c.feature")) = strL (r"a.b") := by decide
example : determine_language_area (strL (r"c.feature")) = unknownArea := by decide
example : check_requires_runtime (strL (r"Then the result should be ok and it should fail to parse")) [] = false := by decide
example : check_requires_runtime (strL (r"Then the result should be ok")) [] = true := by decide
example : check_requires_runtime (strL (r"nothing here")) [] = false := by decide
example : check_requires_runtime (strL (r"then a TypeError should be raised")) [] = true := by decide

example : scenario_id (strL (r"expressions/arithmetic.feature")) 0 = strL (r"expressions-arithmetic-01") := by decide
example : scenario_id (strL (r"expressions/arithmetic.feature")) 1 = strL (r"expressions-arithmetic-02") := by decide
example : scenario_id (strL (r"a-b.feature")) 0 = strL (r"a-b-01") := by decide
example : scenario_id (strL (r"a/b.feature")) 0 = strL (r"a-b-01") := by decide
example : scenario_id (strL (r"a.feature.feature")) 0 = strL (r"a-01") := by decide
example : scenario_id_spec (strL (r"a.feature.feature")) 0 = strL (r"a.feature-01") := by decide
example : pad2 100 = strL (r"100") := by decide
